import Mathlib

/-!
Verification of the todo-demo persistence/query layer.

The definitions below are a shallow embedding of the repository's record
store (`src/unnamed/part_004`, the `db` module), the filter engine
(`src/todo-app/src/store/todoStore.ts`, `filterTodos`) and the calendar
bucketing helpers (`src/todo-app/src/components/CalendarView.tsx`).

Modelling conventions:
* JS `Date` values are modelled by `DateTime` below: the components observed
  by the embedded code (`getFullYear`, `getMonth` (0-based), `getDate`,
  `getHours`, `getMinutes`), all taken in one fixed (UTC-like) timezone.
  Seconds and milliseconds are omitted: no embedded code path observes them.
* Record fields that the source code checks defensively for presence
  (`todo.tags`, `todo.notes`, ... may be absent in persisted records that
  predate a schema version; the store backfills defaults only on some reads)
  are modelled as `Option`.
* JS truthiness: for strings, `x || d` falls through on the empty string as
  well as on a missing value (`jsOrStr`); arrays and Date objects are always
  truthy, so for them `x || d` is plain `Option.getD`.
* The IndexedDB database is modelled by `DBState`: the five object stores
  plus the autoincrement counter of the `todos` store.
-/

set_option maxHeartbeats 1000000

namespace TodoApp

/-- Calendar date-time (one fixed timezone, minute precision); see module
docstring. `month` is 0-based and `day` 1-based, matching JS `getMonth` /
`getDate`. -/
structure DateTime where
  year : Nat
  month : Nat
  day : Nat
  hour : Nat
  minute : Nat
  deriving DecidableEq

/-- `enum Priority` from the db module. -/
inductive Priority where
  | low
  | medium
  | high
  deriving DecidableEq

/-- `enum RepeatType` from the db module. -/
inductive RepeatType where
  | none
  | daily
  | weekly
  | monthly
  | yearly
  | custom
  deriving DecidableEq

/-- `interface RepeatConfig` from the db module. -/
structure RepeatConfig where
  type : RepeatType
  interval : Option Nat
  daysOfWeek : Option (List Nat)
  endDate : Option DateTime
  occurrence : Option Nat
  deriving DecidableEq

/-- `interface SubTask` from the db module. -/
structure SubTask where
  id : String
  text : String
  completed : Bool
  deriving DecidableEq

/-- `interface TodoNote` from the db module. -/
structure TodoNote where
  id : String
  content : String
  createdAt : DateTime
  updatedAt : DateTime
  deriving DecidableEq

/-- The `timeTracking` sub-object of a `Todo`. `totalTime` is in
milliseconds; `Int` because it is computed by subtracting timestamps. -/
structure TimeTracking where
  started : Option DateTime
  stopped : Option DateTime
  totalTime : Option Int
  deriving DecidableEq

/-- `interface Todo` from the db module. Fields the code guards for absence
at runtime are `Option` (persisted records from old schema versions may lack
them); `createdAt` is `Option` because `addTodo` payloads may omit it and the
store defaults it. The source field `repeat` is called `repeatConfig` here
(`repeat` is a Lean keyword). -/
structure Todo where
  id : Option Nat
  text : String
  description : Option String
  completed : Bool
  createdAt : Option DateTime
  dueDate : Option DateTime
  startDate : Option DateTime
  endDate : Option DateTime
  tags : Option (List String)
  priority : Option Priority
  repeatConfig : Option RepeatConfig
  subtasks : Option (List SubTask)
  notes : Option (List TodoNote)
  parentId : Option Nat
  categoryId : Option String
  completedAt : Option DateTime
  timeTracking : Option TimeTracking
  deriving DecidableEq

/-- `interface Category` from the db module. -/
structure Category where
  id : String
  name : String
  color : String
  parentId : Option String
  deriving DecidableEq

/-- `interface UserSettings` from the db module (enum-valued fields modelled
as strings; the fixed `id : "settings"` key is implicit in the singleton
`DBState.settings` slot). -/
structure UserSettings where
  theme : String
  language : String
  dateFormat : String
  timeFormat : String
  defaultView : String
  defaultCalendarView : String
  startOfWeek : Nat
  deriving DecidableEq

/-- `interface TodoTemplate` from the db module. `todoData` is a partial
`Todo` payload (id/createdAt/completedAt omitted in the source type). -/
structure TodoTemplate where
  id : String
  name : String
  description : Option String
  todoData : Todo
  deriving DecidableEq

/-- Per-category / per-tag rollup entries of `StatsData`. -/
structure CatCounts where
  completed : Nat
  total : Nat
  deriving DecidableEq

/-- `interface StatsData` from the db module. The JS record objects
`categoryStats` / `tagStats` (string-keyed maps) are modelled as partial
functions. -/
structure StatsData where
  id : String
  date : DateTime
  completedCount : Nat
  totalCount : Nat
  categoryStats : String → Option CatCounts
  tagStats : String → Option CatCounts

/-- The IndexedDB database `todo-app-db`: five object stores plus the
autoincrement key counter of the `todos` store. The `stats` store is keyed
by its string id. -/
structure DBState where
  todos : List Todo
  nextTodoId : Nat
  categories : List Category
  settings : Option UserSettings
  templates : List TodoTemplate
  statsStore : String → Option StatsData

/-! ### Date helpers -/

/-- Same calendar day, comparing `getFullYear`/`getMonth`/`getDate`
separately like `filterTodos` and `getTodosByDate` do (date-fns `isSameDay`
is the same comparison). -/
def isSameDayYMD (a b : DateTime) : Bool :=
  decide (a.year = b.year) && decide (a.month = b.month) && decide (a.day = b.day)

/-- date-fns `startOfDay` (also `setHours(0,0,0,0)`). -/
def startOfDay (d : DateTime) : DateTime :=
  { d with hour := 0, minute := 0 }

/-- Gregorian leap year. -/
def isLeapYear (y : Nat) : Bool :=
  (decide (y % 4 = 0) && decide (y % 100 ≠ 0)) || decide (y % 400 = 0)

/-- Days in month `m` (0-based) of year `y`. -/
def daysInMonth (y m : Nat) : Nat :=
  if m = 0 then 31
  else if m = 1 then (if isLeapYear y then 29 else 28)
  else if m = 2 then 31
  else if m = 3 then 30
  else if m = 4 then 31
  else if m = 5 then 30
  else if m = 6 then 31
  else if m = 7 then 31
  else if m = 8 then 30
  else if m = 9 then 31
  else if m = 10 then 30
  else 31

/-- date-fns `addDays(d, 1)`: next calendar instant one day later, with
month/year rollover. -/
def addOneDay (d : DateTime) : DateTime :=
  if d.day < daysInMonth d.year d.month then { d with day := d.day + 1 }
  else if d.month < 11 then { d with month := d.month + 1, day := 1 }
  else { d with year := d.year + 1, month := 0, day := 1 }

/-- Chronological order of instants: lexicographic on
(year, month, day, hour, minute). -/
def dtLE (a b : DateTime) : Bool :=
  decide (a.year < b.year) ||
  (decide (a.year = b.year) &&
    (decide (a.month < b.month) ||
      (decide (a.month = b.month) &&
        (decide (a.day < b.day) ||
          (decide (a.day = b.day) &&
            (decide (a.hour < b.hour) ||
              (decide (a.hour = b.hour) && decide (a.minute ≤ b.minute))))))))

/-- Leap years among years `0, 1, ..., y - 1` (year 0 is a leap year). -/
def leapYearsBefore (y : Nat) : Nat :=
  if y = 0 then 0 else ((y - 1) / 4 - (y - 1) / 100 + (y - 1) / 400) + 1

/-- Days in months `0, ..., m - 1` of year `y`. -/
def daysBeforeMonth (y m : Nat) : Nat :=
  (List.range m).foldl (fun a i => a + daysInMonth y i) 0

/-- Day index of a date (days since day 1 of month 0 of year 0). -/
def dayNumber (d : DateTime) : Nat :=
  365 * d.year + leapYearsBefore d.year + daysBeforeMonth d.year d.month + (d.day - 1)

/-- JS `Date.prototype.getTime` restricted to minute precision: milliseconds
since the epoch of this model (year 0). Only differences of this value are
ever used (time-tracking `elapsed`). -/
def getTime (d : DateTime) : Nat :=
  (((dayNumber d) * 24 + d.hour) * 60 + d.minute) * 60000

/-! ### String helpers -/

/-- `q` occurs as a contiguous sublist of `s` (JS `String.includes` on the
character lists). -/
def containsSubList (q : List Char) : List Char → Bool
  | [] => q.isEmpty
  | c :: t => q.isPrefixOf (c :: t) || containsSubList q t

/-- JS `s.includes(q)`. -/
def strContains (s q : String) : Bool :=
  containsSubList q.data s.data

/-- JS `toLowerCase` (ASCII case folding, mapped over the characters;
defined on the character list so that it evaluates by kernel reduction). -/
def toLowerStr (s : String) : String := String.mk (s.data.map Char.toLower)

/-- ASCII whitespace, for JS `trim`. -/
def isWs (c : Char) : Bool := c = ' ' || c = '\t' || c = '\n' || c = '\r'

/-- JS `s.trim()` on the character list. -/
def trimChars (l : List Char) : List Char :=
  ((l.dropWhile isWs).reverse.dropWhile isWs).reverse

/-- JS `x || d` for an optional string: a missing value and the empty string
are both falsy. -/
def jsOrStr (x : Option String) (d : String) : String :=
  match x with
  | some s => if s.data.isEmpty then d else s
  | none => d

/-- A task's tag list as a plain list (empty when the field is absent). Used
to state spec properties about "the task's tag list". -/
def Todo.tagList (t : Todo) : List String := t.tags.getD []

/-! ### The filter engine (`filterTodos`, todoStore.ts lines 95-171)

Each `...Passes` function is one guard clause of the source predicate; the
clauses are combined with `&&` in source order. -/

/-- Date clause (lines 106-114): only applied when **both** a date filter is
active and the task has a due date; otherwise it lets the task through. -/
def datePasses (selectedDate : Option DateTime) (todo : Todo) : Bool :=
  match selectedDate, todo.dueDate with
  | some sd, some dd => isSameDayYMD dd sd
  | _, _ => true

/-- Tag clause (lines 117-124): with a non-empty selection, the task must
have a tag list containing every selected tag. -/
def tagFilterOk (todo : Todo) (selectedTags : List String) : Bool :=
  if 0 < selectedTags.length then
    match todo.tags with
    | some tl => selectedTags.all fun tag => tl.any fun s => decide (s = tag)
    | none => false
  else true

/-- Category clause (lines 127-134). -/
def categoryPasses (selectedCategories : List String) (todo : Todo) : Bool :=
  if 0 < selectedCategories.length then
    match todo.categoryId with
    | some cid => selectedCategories.any fun s => decide (s = cid)
    | none => false
  else true

/-- Priority clause (line 137): exact equality when a priority is selected
(a task with a missing priority field never equals a selected priority). -/
def priorityPasses (selectedPriority : Option Priority) (todo : Todo) : Bool :=
  match selectedPriority with
  | some p => decide (todo.priority = some p)
  | none => true

/-- Free-text clause (lines 142-160): case-insensitive substring match
against title, description, any tag, or any note content. -/
def searchPasses (searchQuery : String) (todo : Todo) : Bool :=
  if (trimChars searchQuery.data).isEmpty then true
  else
    let query := toLowerStr searchQuery
    let textMatch := strContains (toLowerStr todo.text) query
    let descMatch := match todo.description with
      | some d => strContains (toLowerStr d) query
      | none => false
    let tagsMatch := match todo.tags with
      | some tl => tl.any fun tag => strContains (toLowerStr tag) query
      | none => false
    let notesMatch := match todo.notes with
      | some ns => ns.any fun note => strContains (toLowerStr note.content) query
      | none => false
    textMatch || descMatch || tagsMatch || notesMatch

/-- Completion clause (lines 163-167): tri-state. -/
inductive CompletionFilter where
  | all
  | completed
  | active
  deriving DecidableEq

def completionPasses (cf : CompletionFilter) (todo : Todo) : Bool :=
  match cf with
  | .completed => todo.completed
  | .active => !todo.completed
  | .all => true

/-- The whole per-task predicate of `filterTodos`. -/
def filterPred (selectedDate : Option DateTime) (selectedTags selectedCategories : List String)
    (selectedPriority : Option Priority) (searchQuery : String)
    (completionFilter : CompletionFilter) (todo : Todo) : Bool :=
  datePasses selectedDate todo &&
  tagFilterOk todo selectedTags &&
  categoryPasses selectedCategories todo &&
  priorityPasses selectedPriority todo &&
  searchPasses searchQuery todo &&
  completionPasses completionFilter todo

/-- `filterTodos` (todoStore.ts lines 95-171). -/
def filterTodos (todos : List Todo) (selectedDate : Option DateTime)
    (selectedTags selectedCategories : List String) (selectedPriority : Option Priority)
    (searchQuery : String) (completionFilter : CompletionFilter) : List Todo :=
  todos.filter
    (filterPred selectedDate selectedTags selectedCategories selectedPriority
      searchQuery completionFilter)

/-! ### Record-store read operations (db module) -/

/-- The read-repair applied inside `getTodos` (db module lines 320-327):
missing `tags`/`priority`/`subtasks`/`notes`/`description` are replaced by
defaults via JS `||`. -/
def normalizeTodo (todo : Todo) : Todo :=
  { todo with
    tags := some (todo.tags.getD []),
    priority := some (todo.priority.getD Priority.medium),
    subtasks := some (todo.subtasks.getD []),
    notes := some (todo.notes.getD []),
    description := some (jsOrStr todo.description "") }

/-- `getTodos` (lines 311-328) on the contents of the `todos` store. -/
def getTodosFn (todos : List Todo) : List Todo := todos.map normalizeTodo

/-- `getTodosByDate` (lines 331-348): same-calendar-day filter over the raw
store contents; no read-repair is applied. -/
def getTodosByDateFn (todos : List Todo) (date : DateTime) : List Todo :=
  todos.filter fun todo =>
    match todo.dueDate with
    | some dd => isSameDayYMD dd date
    | none => false

/-- `getTodosByCategory` (lines 388-393): `getAllFromIndex` on the
`categoryId` index, i.e. the raw records whose `categoryId` equals the key
(records without the field are absent from the index). -/
def getTodosByCategoryFn (todos : List Todo) (categoryId : String) : List Todo :=
  todos.filter fun t => decide (t.categoryId = some categoryId)

/-- `getTodosByPriority` (lines 367-372): `getAllFromIndex` on `priority`. -/
def getTodosByPriorityFn (todos : List Todo) (priority : Priority) : List Todo :=
  todos.filter fun t => decide (t.priority = some priority)

/-- `getTodosByTag` (lines 396-401). -/
def getTodosByTagFn (todos : List Todo) (tag : String) : List Todo :=
  todos.filter fun todo =>
    match todo.tags with
    | some tl => tl.any fun s => decide (s = tag)
    | none => false

/-- `searchTodos` (lines 435-450): case-insensitive substring match on
title, description, or note contents (tags are not searched here). -/
def searchTodosFn (todos : List Todo) (query : String) : List Todo :=
  todos.filter fun todo =>
    let lowerQuery := toLowerStr query
    strContains (toLowerStr todo.text) lowerQuery ||
    (match todo.description with
     | some d => strContains (toLowerStr d) lowerQuery
     | none => false) ||
    (match todo.notes with
     | some ns => ns.any fun note => strContains (toLowerStr note.content) lowerQuery
     | none => false)

/-- DB-level `getTodos`. -/
def getTodos (db : DBState) : List Todo := getTodosFn db.todos

/-! ### C1: the date filter and tasks without a due date -/

/-- A concrete stored task without a due date (all optional fields absent). -/
def c1Todo : Todo :=
  { id := some 1, text := "undated task", description := none, completed := false,
    createdAt := none, dueDate := none, startDate := none, endDate := none,
    tags := none, priority := none, repeatConfig := none, subtasks := none,
    notes := none, parentId := none, categoryId := none, completedAt := none,
    timeTracking := none }

/-- A concrete task due 2024-01-10 (month is 0-based) at 09:00. -/
def c1DatedTodo : Todo :=
  { c1Todo with
    id := some 2,
    text := "dated task",
    dueDate := some ⟨2024, 0, 10, 9, 0⟩ }

/-- The selected day 2024-01-15. -/
def c1Date : DateTime := ⟨2024, 0, 15, 12, 0⟩

/-- C1 is false on the code: with a date filter active (`selectedDate`
non-null), a task with **no** due date is not excluded — `filterTodos` only
applies the date clause when the task has a due date. `c1Todo` has no due
date and survives the filter for the selected day 2024-01-15. -/
theorem c1_counterexample :
    c1Todo.dueDate = none ∧
    c1Todo ∈ filterTodos [c1Todo] (some c1Date) [] [] none "" CompletionFilter.all :=
  ⟨rfl, by decide⟩

/-- The date clause evaluated for a task that has a due date. -/
theorem datePasses_some_due (sd : DateTime) (t : Todo) (dd : DateTime)
    (h : t.dueDate = some dd) : datePasses (some sd) t = isSameDayYMD dd sd := by
  rw [datePasses.eq_def, h]

/-- The date clause lets a task without a due date through, whatever the
selected date is. -/
theorem datePasses_none_due (sd : Option DateTime) (t : Todo)
    (h : t.dueDate = none) : datePasses sd t = true := by
  rw [datePasses.eq_def, h]
  cases sd <;> rfl

/-- C1 (corrected): with a date filter active, a task **with** a due date is
included only if that due date, truncated to calendar day, equals the
selected day; a task **without** a due date is not constrained by the date
filter at all (its membership in the output is the same as with no date
filter). -/
theorem c1_amended_thm (todos : List Todo) (sd : DateTime) (S cats : List String)
    (pr : Option Priority) (q : String) (cf : CompletionFilter) :
    (∀ t ∈ filterTodos todos (some sd) S cats pr q cf,
      ∀ dd, t.dueDate = some dd → isSameDayYMD dd sd = true)
    ∧ (∀ t : Todo, t.dueDate = none →
        (t ∈ filterTodos todos (some sd) S cats pr q cf ↔
          t ∈ filterTodos todos none S cats pr q cf)) := by
  constructor
  · intro t ht dd hdd
    rw [filterTodos, List.mem_filter] at ht
    have hp := ht.2
    rw [filterPred] at hp
    simp only [Bool.and_eq_true] at hp
    have hd := hp.1.1.1.1.1
    rwa [datePasses_some_due sd t dd hdd] at hd
  · intro t hdd
    rw [filterTodos, List.mem_filter, filterTodos, List.mem_filter]
    rw [filterPred, filterPred, datePasses_none_due (some sd) t hdd,
      datePasses_none_due none t hdd]

/-- Witness for `c1_amended_thm` at the concrete tasks above. -/
theorem c1_amended_witness :
    (∀ dd, c1DatedTodo.dueDate = some dd → isSameDayYMD dd ⟨2024, 0, 10, 18, 30⟩ = true)
    ∧ (c1Todo ∈ filterTodos [c1Todo, c1DatedTodo] (some c1Date) [] [] none "" CompletionFilter.all ↔
        c1Todo ∈ filterTodos [c1Todo, c1DatedTodo] none [] [] none "" CompletionFilter.all) :=
  ⟨(c1_amended_thm [c1Todo, c1DatedTodo] ⟨2024, 0, 10, 18, 30⟩ [] [] none "" .all).1
      c1DatedTodo (by decide),
   (c1_amended_thm [c1Todo, c1DatedTodo] c1Date [] [] none "" .all).2 c1Todo rfl⟩

/-! ### C2: read-repair normalization -/

/-- A persisted record from an old schema version: `tags`, `subtasks`,
`notes` and `description` absent, with a due date 2024-02-01. -/
def c2Todo : Todo :=
  { id := some 7, text := "legacy record", description := none, completed := false,
    createdAt := some ⟨2023, 5, 1, 0, 0⟩, dueDate := some ⟨2024, 1, 1, 0, 0⟩,
    startDate := none, endDate := none, tags := none, priority := none,
    repeatConfig := none, subtasks := none, notes := none, parentId := none,
    categoryId := none, completedAt := none, timeTracking := none }

def c2Date : DateTime := ⟨2024, 1, 1, 10, 0⟩

/-- C2 is false on the code: `getTodosByDate` (like the other indexed /
filtering reads) returns records **as stored**, without the read-repair that
`getTodos` applies. The legacy record `c2Todo` is returned with `tags`
still absent. -/
theorem c2_counterexample :
    c2Todo ∈ getTodosByDateFn [c2Todo] c2Date ∧ c2Todo.tags = none :=
  ⟨by decide, rfl⟩

/-- C2 (corrected): only `getTodos` normalizes the optional-collection
fields (`tags`, `subtasks`, `notes` present lists, `description` a present
string); the other read operations (`getTodosByDate`, `getTodosByCategory`,
`getTodosByPriority`, `getTodosByTag`, `searchTodos`) return records exactly
as stored. -/
theorem c2_amended_thm (todos : List Todo) (d : DateTime) (cid : String)
    (p : Priority) (tag q : String) :
    (∀ t ∈ getTodosFn todos,
      (∃ l, t.tags = some l) ∧ (∃ l, t.subtasks = some l) ∧
      (∃ l, t.notes = some l) ∧ (∃ s, t.description = some s))
    ∧ (∀ t ∈ getTodosByDateFn todos d, t ∈ todos)
    ∧ (∀ t ∈ getTodosByCategoryFn todos cid, t ∈ todos)
    ∧ (∀ t ∈ getTodosByPriorityFn todos p, t ∈ todos)
    ∧ (∀ t ∈ getTodosByTagFn todos tag, t ∈ todos)
    ∧ (∀ t ∈ searchTodosFn todos q, t ∈ todos) := by
  refine ⟨?_, ?_, ?_, ?_, ?_, ?_⟩
  · intro t ht
    rw [getTodosFn, List.mem_map] at ht
    obtain ⟨x, -, rfl⟩ := ht
    exact ⟨⟨_, rfl⟩, ⟨_, rfl⟩, ⟨_, rfl⟩, ⟨_, rfl⟩⟩
  all_goals intro t ht
  · exact (List.mem_filter.mp ht).1
  · exact (List.mem_filter.mp ht).1
  · exact (List.mem_filter.mp ht).1
  · exact (List.mem_filter.mp ht).1
  · exact (List.mem_filter.mp ht).1

/-- Witness for `c2_amended_thm`: the legacy record comes back unchanged
from `getTodosByDate`, and the normalized copy produced by `getTodos` has
all collection fields present. -/
theorem c2_witness :
    c2Todo ∈ [c2Todo] ∧ (∃ l, (normalizeTodo c2Todo).tags = some l) :=
  ⟨(c2_amended_thm [c2Todo] c2Date "c" Priority.low "t" "q").2.1 c2Todo (by decide),
   ((c2_amended_thm [c2Todo] c2Date "c" Priority.low "t" "q").1
      (normalizeTodo c2Todo) (by decide)).1⟩

/-! ### C3: tag filter is superset semantics -/

/-- C3: a task passes the tag clause iff the selected tag set is a subset of
the task's tag list; an empty selection imposes no constraint; and every
task in the output of `filterTodos` passes the tag clause. -/
theorem c3_tag_filter_iff (todos : List Todo) (sd : Option DateTime)
    (S cats : List String) (pr : Option Priority) (q : String) (cf : CompletionFilter) :
    (∀ t : Todo, (tagFilterOk t S = true ↔ ∀ tag ∈ S, tag ∈ t.tagList))
    ∧ (∀ t : Todo, tagFilterOk t [] = true)
    ∧ (∀ t ∈ filterTodos todos sd S cats pr q cf, ∀ tag ∈ S, tag ∈ t.tagList) := by
  have hiff : ∀ (t : Todo) (S2 : List String),
      tagFilterOk t S2 = true ↔ ∀ tag ∈ S2, tag ∈ t.tagList := by
    intro t S2
    cases S2 with
    | nil =>
      rw [tagFilterOk]
      simp
    | cons a S3 =>
      rw [tagFilterOk, if_pos (by simp : 0 < (a :: S3).length)]
      cases htags : t.tags with
      | none =>
        constructor
        · intro h
          exact absurd h (by simp)
        · intro h
          have ha := h a (List.mem_cons_self a S3)
          rw [Todo.tagList, htags] at ha
          exact absurd ha (List.not_mem_nil a)
      | some tl =>
        simp only [Todo.tagList, htags, Option.getD_some, List.all_eq_true,
          List.any_eq_true, decide_eq_true_eq]
        constructor
        · intro h tag htag
          obtain ⟨s, hs, rfl⟩ := h tag htag
          exact hs
        · intro h tag htag
          exact ⟨tag, h tag htag, rfl⟩
  refine ⟨fun t => hiff t S, ?_, ?_⟩
  · intro t
    rw [tagFilterOk]
    simp
  · intro t ht tag htag
    rw [filterTodos, List.mem_filter] at ht
    have hp := ht.2
    rw [filterPred] at hp
    simp only [Bool.and_eq_true] at hp
    exact (hiff t S).mp hp.1.1.1.1.2 tag htag

/-- A task tagged `a`, `b`. -/
def c3Todo : Todo :=
  { c1Todo with
    id := some 3,
    text := "tagged task",
    tags := some ["a", "b"] }

/-- Witness for `c3_tag_filter_iff`: selecting tag `a` keeps `c3Todo` and
its tag list indeed contains `a`. -/
theorem c3_witness : ∀ tag ∈ ["a"], tag ∈ c3Todo.tagList :=
  (c3_tag_filter_iff [c3Todo] none ["a"] [] none "" CompletionFilter.all).2.2
    c3Todo (by decide)

/-! ### C9: the filter is idempotent -/

/-- `List.filter` with one fixed predicate is idempotent. -/
theorem filter_idem {α : Type} (p : α → Bool) (l : List α) :
    List.filter p (List.filter p l) = List.filter p l := by
  induction l with
  | nil => rfl
  | cons a l ih =>
    cases h : p a with
    | true => simp [List.filter_cons, h, ih]
    | false => simp [List.filter_cons, h, ih]

/-- C9: `filterTodos` is idempotent — filtering an already-filtered list
with the same criteria returns the same list. -/
theorem c9_filterTodos_idempotent (todos : List Todo) (sd : Option DateTime)
    (S cats : List String) (pr : Option Priority) (q : String) (cf : CompletionFilter) :
    filterTodos (filterTodos todos sd S cats pr q cf) sd S cats pr q cf =
      filterTodos todos sd S cats pr q cf :=
  filter_idem _ todos

/-! ### Record-store primitives and mutators (db module)

`db.get(TODO_STORE, id)` is a key lookup; `db.put(TODO_STORE, record)`
replaces the record with the same key (or inserts if the key is absent);
`db.add(TODO_STORE, record)` inserts with the next autoincrement key.
Asynchrony is irrelevant here: the app awaits each call to completion, so
each operation is a pure state transformer. `new Date()` / `uuid()` values
are passed in as explicit parameters. -/

/-- `db.get(TODO_STORE, id)`. -/
def getTodoRec (db : DBState) (id : Nat) : Option Todo :=
  db.todos.find? fun t => decide (t.id = some id)

/-- `db.put(TODO_STORE, todo)` on the record list: replace the record with
the same key, or append when no record has that key. -/
def putList (l : List Todo) (todo : Todo) : List Todo :=
  if l.any (fun t => decide (t.id = todo.id)) then
    l.map fun t => if t.id = todo.id then todo else t
  else l ++ [todo]

/-- `db.put(TODO_STORE, todo)` (also `updateTodo`, db module lines 470-473). -/
def putTodoRec (db : DBState) (todo : Todo) : DBState :=
  { db with todos := putList db.todos todo }

/-- `toggleTodoCompletion` (db module lines 476-491). `now` is the
`new Date()` taken when `completed` is true. -/
def toggleTodoCompletion (db : DBState) (id : Nat) (completed : Bool)
    (now : DateTime) : DBState × Option Todo :=
  match getTodoRec db id with
  | some todo =>
    let t2 : Todo :=
      { todo with
        completed := completed,
        completedAt := if completed then some now else none }
    (putTodoRec db t2, some t2)
  | none => (db, none)

/-- `addSubtask` (db module lines 494-514); `newId` is the generated uuid. -/
def addSubtask (db : DBState) (todoId : Nat) (subtaskText : String)
    (newId : String) : DBState × Option Todo :=
  match getTodoRec db todoId with
  | some todo =>
    let newSubtask : SubTask := { id := newId, text := subtaskText, completed := false }
    let t2 : Todo := { todo with subtasks := some (todo.subtasks.getD [] ++ [newSubtask]) }
    (putTodoRec db t2, some t2)
  | none => (db, none)

/-- `addNote` (db module lines 538-560); `newId` is the generated uuid and
`now` the creation timestamp. -/
def addNote (db : DBState) (todoId : Nat) (content : String) (newId : String)
    (now : DateTime) : DBState × Option Todo :=
  match getTodoRec db todoId with
  | some todo =>
    let newNote : TodoNote := { id := newId, content := content, createdAt := now, updatedAt := now }
    let t2 : Todo := { todo with notes := some (todo.notes.getD [] ++ [newNote]) }
    (putTodoRec db t2, some t2)
  | none => (db, none)

/-- `startTimeTracking` (db module lines 563-581): spread the existing
`timeTracking` (or an empty object), overwrite `started`, clear `stopped`. -/
def startTimeTracking (db : DBState) (todoId : Nat) (now : DateTime) :
    DBState × Option Todo :=
  match getTodoRec db todoId with
  | some todo =>
    let prev : TimeTracking := todo.timeTracking.getD ⟨none, none, none⟩
    let t2 : Todo :=
      { todo with
        timeTracking := some { started := some now, stopped := none, totalTime := prev.totalTime } }
    (putTodoRec db t2, some t2)
  | none => (db, none)

/-- `stopTimeTracking` (db module lines 584-606): requires the record to
exist **and** to have a `timeTracking.started` value; otherwise it returns
`undefined` without touching the store. -/
def stopTimeTracking (db : DBState) (todoId : Nat) (now : DateTime) :
    DBState × Option Todo :=
  match getTodoRec db todoId with
  | some todo =>
    match todo.timeTracking with
    | some tt =>
      match tt.started with
      | some started =>
        let elapsed : Int := (getTime now : Int) - (getTime started : Int)
        let t2 : Todo :=
          { todo with
            timeTracking := some
              { started := some started, stopped := some now,
                totalTime := some (tt.totalTime.getD 0 + elapsed) } }
        (putTodoRec db t2, some t2)
      | none => (db, none)
    | none => (db, none)
  | none => (db, none)

/-- `addTodo` (db module lines 294-309): fill in the defaulted fields, then
`db.add` with the autoincrement key (the payload type omits `id`). Returns
the new state and the assigned key. -/
def addTodo (db : DBState) (todo : Todo) (now : DateTime) : DBState × Nat :=
  let newTodo : Todo :=
    { todo with
      createdAt := some (todo.createdAt.getD now),
      tags := some (todo.tags.getD []),
      priority := some (todo.priority.getD Priority.medium),
      subtasks := some (todo.subtasks.getD []),
      notes := some (todo.notes.getD []),
      description := some (jsOrStr todo.description "") }
  let key := db.nextTodoId
  ({ db with
      todos := db.todos ++ [{ newTodo with id := some key }],
      nextTodoId := key + 1 },
    key)

/-- The loop body of `deleteCategory`: `todo.categoryId = undefined`. -/
def clearCat (t : Todo) : Todo := { t with categoryId := none }

/-- `deleteCategory` (db module lines 664-674): delete the category record,
then for every task returned by `getTodosByCategory(id)` clear its
`categoryId` and `updateTodo` (= `db.put`) it back. -/
def deleteCategory (db : DBState) (id : String) : DBState :=
  let db1 : DBState :=
    { db with categories := db.categories.filter fun c => !decide (c.id = id) }
  let refs := getTodosByCategoryFn db1.todos id
  refs.foldl (fun acc todo => putTodoRec acc (clearCat todo)) db1

/-! ### Lookup / update lemmas -/

/-- Replacing the record with key `k` and then looking `k` up finds the
replacement (elements before the first match do not have key `k`). -/
theorem find?_map_replace (t2 : Todo) (k : Nat) (hid : t2.id = some k) :
    ∀ l : List Todo, (∃ x ∈ l, x.id = some k) →
      (l.map fun t => if t.id = t2.id then t2 else t).find?
        (fun t => decide (t.id = some k)) = some t2 := by
  intro l
  induction l with
  | nil => rintro ⟨x, hx, -⟩; cases hx
  | cons a l ih =>
    rintro ⟨x, hx, hxk⟩
    by_cases ha : a.id = t2.id
    · simp only [List.map_cons, if_pos ha, List.find?_cons]
      rw [decide_eq_true hid]
    · simp only [List.map_cons, if_neg ha, List.find?_cons]
      have hak : ¬ a.id = some k := by
        intro h; exact ha (h.trans hid.symm)
      rw [decide_eq_false hak]
      apply ih
      rcases List.mem_cons.mp hx with rfl | hxl
      · exact absurd hxk hak
      · exact ⟨x, hxl, hxk⟩

/-- `db.put` of a record whose key is already present, followed by
`db.get` of that key, returns the record. -/
theorem getTodoRec_put (db : DBState) (t2 : Todo) (k : Nat)
    (hid : t2.id = some k) (hex : ∃ x ∈ db.todos, x.id = some k) :
    getTodoRec (putTodoRec db t2) k = some t2 := by
  rw [getTodoRec, putTodoRec, putList]
  have hany : (db.todos.any fun t => decide (t.id = t2.id)) = true := by
    obtain ⟨x, hx, hxk⟩ := hex
    exact List.any_eq_true.mpr ⟨x, hx, decide_eq_true (hxk.trans hid.symm)⟩
  rw [if_pos hany]
  exact find?_map_replace t2 k hid db.todos hex

/-- A successful `db.get` yields a member of the store with that key. -/
theorem getTodoRec_some (db : DBState) (k : Nat) (todo : Todo)
    (h : getTodoRec db k = some todo) :
    todo ∈ db.todos ∧ todo.id = some k := by
  rw [getTodoRec] at h
  refine ⟨List.mem_of_find?_eq_some h, ?_⟩
  have := List.find?_some h
  exact of_decide_eq_true this

/-! ### C4: toggling completion twice -/

/-- C4: starting from a stored task, toggling to `true` marks it completed
with `completedAt := now`, toggling to `false` clears both; doing the two
calls in either order ends with the `completed` flag equal to the value of
the second call, so from `completed = false` the sequence true-then-false
restores the flag, and from `completed = true` the sequence false-then-true
restores it. -/
theorem c4_toggle_twice (db : DBState) (k : Nat) (todo : Todo) (t1 t2 : DateTime)
    (h : getTodoRec db k = some todo) :
    getTodoRec (toggleTodoCompletion db k true t1).1 k =
      some { todo with completed := true, completedAt := some t1 }
    ∧ getTodoRec (toggleTodoCompletion (toggleTodoCompletion db k true t1).1 k false t2).1 k =
      some { todo with completed := false, completedAt := none }
    ∧ getTodoRec (toggleTodoCompletion db k false t1).1 k =
      some { todo with completed := false, completedAt := none }
    ∧ getTodoRec (toggleTodoCompletion (toggleTodoCompletion db k false t1).1 k true t2).1 k =
      some { todo with completed := true, completedAt := some t2 }
    ∧ (todo.completed = false →
        (Todo.completed { todo with completed := false, completedAt := none }) = todo.completed)
    ∧ (todo.completed = true →
        (Todo.completed { todo with completed := true, completedAt := some t2 }) = todo.completed) := by
  obtain ⟨hmem, hid⟩ := getTodoRec_some db k todo h
  have step : ∀ (d : DBState) (x : Todo) (b : Bool) (tm : DateTime),
      getTodoRec d k = some x →
      getTodoRec (toggleTodoCompletion d k b tm).1 k =
        some { x with completed := b, completedAt := if b then some tm else none } := by
    intro d x b tm hx
    obtain ⟨hxm, hxid⟩ := getTodoRec_some d k x hx
    rw [toggleTodoCompletion, hx]
    exact getTodoRec_put d _ k hxid ⟨x, hxm, hxid⟩
  have h1 := step db todo true t1 h
  have h2 := step _ _ false t2 h1
  have h3 := step db todo false t1 h
  have h4 := step _ _ true t2 h3
  refine ⟨h1, ?_, h3, ?_, fun hc => by rw [hc], fun hc => by rw [hc]⟩
  · exact h2
  · exact h4

/-- A concrete one-task store for the witnesses. -/
def w4Todo : Todo :=
  { c1Todo with
    id := some 1,
    text := "witness task" }

def w4DB : DBState :=
  { todos := [w4Todo], nextTodoId := 2, categories := [], settings := none,
    templates := [], statsStore := fun _ => none }

def w4Date1 : DateTime := ⟨2024, 2, 3, 10, 0⟩

def w4Date2 : DateTime := ⟨2024, 2, 3, 11, 0⟩

/-- Witness for `c4_toggle_twice` on the concrete one-task store. -/
theorem c4_witness :
    getTodoRec (toggleTodoCompletion w4DB 1 true w4Date1).1 1 =
      some { w4Todo with completed := true, completedAt := some w4Date1 } :=
  (c4_toggle_twice w4DB 1 w4Todo w4Date1 w4Date2 (by decide)).1

/-! ### C10: operations on a missing task id are no-ops -/

/-- C10: each mutator looks the id up first and returns `undefined` leaving
the whole database unchanged when no task has that id; `stopTimeTracking`
additionally no-ops when the task exists but has no started time-tracking
timestamp. -/
theorem c10_missing_id_noop (db : DBState) (k : Nat) (b : Bool)
    (stext scontent sid nid : String) (now : DateTime) :
    (getTodoRec db k = none →
      toggleTodoCompletion db k b now = (db, none)
      ∧ addSubtask db k stext sid = (db, none)
      ∧ addNote db k scontent nid now = (db, none)
      ∧ startTimeTracking db k now = (db, none)
      ∧ stopTimeTracking db k now = (db, none))
    ∧ (∀ todo : Todo, getTodoRec db k = some todo →
        (todo.timeTracking = none ∨
          ∃ tt, todo.timeTracking = some tt ∧ tt.started = none) →
        stopTimeTracking db k now = (db, none)) := by
  constructor
  · intro h
    refine ⟨?_, ?_, ?_, ?_, ?_⟩
    · rw [toggleTodoCompletion, h]
    · rw [addSubtask, h]
    · rw [addNote, h]
    · rw [startTimeTracking, h]
    · rw [stopTimeTracking, h]
  · intro todo h htt
    rw [stopTimeTracking, h]
    rcases htt with htt | ⟨tt, htt, hst⟩
    · simp only [htt]
    · simp only [htt, hst]

/-- A stored task with a `timeTracking` object that was never started. -/
def w10Todo : Todo :=
  { c1Todo with
    id := some 1,
    text := "tracked task",
    timeTracking := some { started := none, stopped := none, totalTime := some 0 } }

def w10DB : DBState :=
  { todos := [w10Todo], nextTodoId := 2, categories := [], settings := none,
    templates := [], statsStore := fun _ => none }

/-- Witness for `c10_missing_id_noop`: id 5 is absent from `w10DB`, and the
present task 1 has no started timestamp. -/
theorem c10_witness :
    toggleTodoCompletion w10DB 5 true w4Date1 = (w10DB, none)
    ∧ stopTimeTracking w10DB 1 w4Date1 = (w10DB, none) :=
  ⟨((c10_missing_id_noop w10DB 5 true "s" "c" "i" "j" w4Date1).1 (by decide)).1,
   (c10_missing_id_noop w10DB 1 true "s" "c" "i" "j" w4Date1).2 w10Todo (by decide)
     (Or.inr ⟨_, rfl, rfl⟩)⟩

/-! ### C5: addTodo / getTodos round trip -/

/-- Re-applying the string default is the identity (if the stored value is
empty the default is empty anyway). -/
theorem jsOrStr_idem (o : Option String) :
    jsOrStr (some (jsOrStr o "")) "" = jsOrStr o "" := by
  cases o with
  | none => rfl
  | some s =>
    by_cases hs : s.data.isEmpty = true
    · simp [jsOrStr, hs]
    · simp [jsOrStr, hs]

/-- C5: adding a payload `x` (no id) and reading the store back yields a
record equal to `x` except for the assigned key and the normalized default
fields: `tags`/`subtasks`/`notes` default to `[]`, `createdAt` to `now`,
`description` to `""`. -/
theorem c5_addTodo_roundtrip (db : DBState) (x : Todo) (now : DateTime) (p : Priority)
    (hid : x.id = none) (hp : x.priority = some p) :
    { x with
      id := some db.nextTodoId,
      createdAt := some (x.createdAt.getD now),
      tags := some (x.tags.getD []),
      subtasks := some (x.subtasks.getD []),
      notes := some (x.notes.getD []),
      description := some (jsOrStr x.description "") } ∈ getTodos (addTodo db x now).1 := by
  rw [getTodos, getTodosFn]
  refine List.mem_map.mpr ⟨{ x with
      id := some db.nextTodoId,
      createdAt := some (x.createdAt.getD now),
      tags := some (x.tags.getD []),
      priority := some (x.priority.getD Priority.medium),
      subtasks := some (x.subtasks.getD []),
      notes := some (x.notes.getD []),
      description := some (jsOrStr x.description "") }, ?_, ?_⟩
  · exact List.mem_append_right db.todos (List.mem_singleton.mpr rfl)
  · cases x with
    | mk idf textf descf cplf caf ddf sdf edf tagsf prf rpf subf notesf paf catf cmpf ttf =>
      cases hp
      simp [normalizeTodo, jsOrStr_idem]

/-- A payload without id, tags, subtasks, notes or description. -/
def c5Payload : Todo :=
  { id := none, text := "new task", description := none, completed := false,
    createdAt := none, dueDate := none, startDate := none, endDate := none,
    tags := none, priority := some Priority.high, repeatConfig := none,
    subtasks := none, notes := none, parentId := none, categoryId := none,
    completedAt := none, timeTracking := none }

def w5DB : DBState :=
  { todos := [], nextTodoId := 1, categories := [], settings := none,
    templates := [], statsStore := fun _ => none }

/-- Witness for `c5_addTodo_roundtrip` on the empty store. -/
theorem c5_witness :
    { c5Payload with
      id := some w5DB.nextTodoId,
      createdAt := some (c5Payload.createdAt.getD w4Date1),
      tags := some (c5Payload.tags.getD []),
      subtasks := some (c5Payload.subtasks.getD []),
      notes := some (c5Payload.notes.getD []),
      description := some (jsOrStr c5Payload.description "") }
      ∈ getTodos (addTodo w5DB c5Payload w4Date1).1 :=
  c5_addTodo_roundtrip w5DB c5Payload w4Date1 Priority.high rfl rfl

/-! ### C6: deleting a category clears references without deleting tasks -/

/-- `List.map` congruence on members. -/
theorem map_congr_mem {α β : Type} (l : List α) (f g : α → β)
    (h : ∀ a ∈ l, f a = g a) : l.map f = l.map g := by
  induction l with
  | nil => rfl
  | cons a l ih =>
    rw [List.map_cons, List.map_cons, h a (List.mem_cons_self a l),
      ih fun b hb => h b (List.mem_cons_of_mem a hb)]

/-- In a store with no duplicate keys, equal keys mean equal records. -/
theorem nodup_id_inj (l : List Todo) (hnd : (l.map Todo.id).Nodup) :
    ∀ a ∈ l, ∀ b ∈ l, a.id = b.id → a = b := by
  induction l with
  | nil => intro a ha; cases ha
  | cons c l ih =>
    rw [List.map_cons, List.nodup_cons] at hnd
    intro a ha b hb hab
    rcases List.mem_cons.mp ha with ha1 | ha2
    · rcases List.mem_cons.mp hb with hb1 | hb2
      · rw [ha1, hb1]
      · subst ha1
        exact absurd (List.mem_map.mpr ⟨b, hb2, hab.symm⟩) hnd.1
    · rcases List.mem_cons.mp hb with hb1 | hb2
      · subst hb1
        exact absurd (List.mem_map.mpr ⟨a, ha2, hab⟩) hnd.1
      · exact ih hnd.2 a ha2 b hb2 hab

/-- The `deleteCategory` loop: folding `db.put` of the cleared records over
any list of references drawn from the store updates exactly the records
whose key occurs among the references. -/
theorem foldl_put_clear (l : List Todo) (hnd : (l.map Todo.id).Nodup) :
    ∀ (refs : List Todo) (db : DBState) (g : Todo → Todo),
      (∀ t, (g t).id = t.id) →
      (∀ r ∈ refs, r ∈ l) →
      db.todos = l.map g →
      (refs.foldl (fun acc todo => putTodoRec acc (clearCat todo)) db).todos
        = l.map fun t =>
            if refs.any (fun r => decide (r.id = t.id)) then clearCat t else g t := by
  intro refs
  induction refs with
  | nil =>
    intro db g hg hsub hdb
    rw [List.foldl_nil, hdb]
    refine map_congr_mem l _ _ fun a ha => ?_
    rw [List.any_nil]
    rfl
  | cons r rest ih =>
    intro db g hg hsub hdb
    have hrl : r ∈ l := hsub r (List.mem_cons_self r rest)
    have hany : (db.todos.any fun t => decide (t.id = (clearCat r).id)) = true := by
      rw [hdb]
      refine List.any_eq_true.mpr ⟨g r, List.mem_map.mpr ⟨r, hrl, rfl⟩, ?_⟩
      exact decide_eq_true (hg r)
    have hstep : (putTodoRec db (clearCat r)).todos
        = l.map fun t => if t.id = r.id then clearCat t else g t := by
      rw [putTodoRec, putList, if_pos hany, hdb, List.map_map]
      refine map_congr_mem l _ _ fun a ha => ?_
      simp only [Function.comp_apply]
      by_cases hc : (g a).id = (clearCat r).id
      · have haid : a.id = r.id := by
          have h3 := hc
          rw [hg a] at h3
          exact h3
        have har : a = r := nodup_id_inj l hnd a ha r hrl haid
        rw [if_pos hc, if_pos haid, har]
      · have haid : ¬ a.id = r.id := by
          intro h2
          exact hc (by rw [hg a]; exact h2)
        rw [if_neg hc, if_neg haid]
    rw [List.foldl_cons]
    rw [ih (putTodoRec db (clearCat r)) (fun t => if t.id = r.id then clearCat t else g t)
      (fun t => by by_cases hc : t.id = r.id <;> simp [hc, clearCat, hg t])
      (fun s hs => hsub s (List.mem_cons_of_mem r hs)) hstep]
    refine map_congr_mem l _ _ fun a ha => ?_
    have hsplit : ((r :: rest).any fun s => decide (s.id = a.id))
        = (decide (r.id = a.id) || rest.any fun s => decide (s.id = a.id)) :=
      List.any_cons
    by_cases h2 : r.id = a.id
    · have hcondR : ((r :: rest).any fun s => decide (s.id = a.id)) = true := by
        rw [hsplit, decide_eq_true h2, Bool.true_or]
      rw [if_pos hcondR]
      by_cases h1 : (rest.any fun s => decide (s.id = a.id)) = true
      · rw [if_pos h1]
      · rw [if_neg h1, if_pos h2.symm]
    · have hcondR : ((r :: rest).any fun s => decide (s.id = a.id))
          = (rest.any fun s => decide (s.id = a.id)) := by
        rw [hsplit, decide_eq_false h2, Bool.false_or]
      rw [hcondR]
      by_cases h1 : (rest.any fun s => decide (s.id = a.id)) = true
      · rw [if_pos h1, if_pos h1]
      · rw [if_neg h1, if_neg h1, if_neg fun hh => h2 hh.symm]

/-- C6: after `deleteCategory cid`, the task list is the old list with
`categoryId` cleared exactly on the tasks that referenced `cid`: every
referencing task `K` is still present as `clearCat K` (not deleted), and
every non-referencing task is unchanged. -/
theorem c6_deleteCategory_clears (db : DBState) (cid : String)
    (hnd : (db.todos.map Todo.id).Nodup) :
    (deleteCategory db cid).todos
      = db.todos.map (fun t => if t.categoryId = some cid then clearCat t else t)
    ∧ (∀ K ∈ db.todos, K.categoryId = some cid →
        clearCat K ∈ (deleteCategory db cid).todos)
    ∧ (∀ t ∈ db.todos, ¬ t.categoryId = some cid →
        t ∈ (deleteCategory db cid).todos) := by
  have hcong : (db.todos.map fun t =>
        if (getTodosByCategoryFn db.todos cid).any (fun r => decide (r.id = t.id)) then
          clearCat t
        else id t)
      = db.todos.map (fun t => if t.categoryId = some cid then clearCat t else t) := by
    refine map_congr_mem db.todos _ _ fun a ha => ?_
    by_cases hc : a.categoryId = some cid
    · have hmem : a ∈ getTodosByCategoryFn db.todos cid :=
        List.mem_filter.mpr ⟨ha, decide_eq_true hc⟩
      have hany : ((getTodosByCategoryFn db.todos cid).any
          fun r => decide (r.id = a.id)) = true :=
        List.any_eq_true.mpr ⟨a, hmem, decide_eq_true rfl⟩
      rw [if_pos hany, if_pos hc]
    · have hany : ¬ ((getTodosByCategoryFn db.todos cid).any
          fun r => decide (r.id = a.id)) = true := by
        intro hany
        obtain ⟨r, hr, hrid⟩ := List.any_eq_true.mp hany
        have hrl := (List.mem_filter.mp hr).1
        have hrc : r.categoryId = some cid := of_decide_eq_true (List.mem_filter.mp hr).2
        have hra : r = a := nodup_id_inj db.todos hnd r hrl a ha (of_decide_eq_true hrid)
        exact hc (hra ▸ hrc)
      rw [if_neg hany, if_neg hc]
      rfl
  have hmain : (deleteCategory db cid).todos
      = db.todos.map (fun t => if t.categoryId = some cid then clearCat t else t) :=
    (foldl_put_clear db.todos hnd
      (getTodosByCategoryFn db.todos cid)
      { db with categories := db.categories.filter fun c => !decide (c.id = cid) }
      id (fun t => rfl)
      (fun r hr => (List.mem_filter.mp hr).1)
      (by simp)).trans hcong
  refine ⟨hmain, ?_, ?_⟩
  · intro K hK hKc
    rw [hmain]
    exact List.mem_map.mpr ⟨K, hK, by rw [if_pos hKc]⟩
  · intro t ht htc
    rw [hmain]
    exact List.mem_map.mpr ⟨t, ht, by rw [if_neg htc]⟩

/-- A category and two tasks, one referencing it. -/
def w6Cat : Category := { id := "c1", name := "work", color := "#fff", parentId := none }

def w6Todo1 : Todo :=
  { c1Todo with
    id := some 1,
    text := "in category",
    categoryId := some "c1" }

def w6Todo2 : Todo :=
  { c1Todo with
    id := some 2,
    text := "no category" }

def w6DB : DBState :=
  { todos := [w6Todo1, w6Todo2], nextTodoId := 3, categories := [w6Cat],
    settings := none, templates := [], statsStore := fun _ => none }

/-- Witness for `c6_deleteCategory_clears` on the concrete store. -/
theorem c6_witness :
    clearCat w6Todo1 ∈ (deleteCategory w6DB "c1").todos
    ∧ w6Todo2 ∈ (deleteCategory w6DB "c1").todos :=
  ⟨(c6_deleteCategory_clears w6DB "c1" (by decide)).2.1 w6Todo1 (by decide) rfl,
   (c6_deleteCategory_clears w6DB "c1" (by decide)).2.2 w6Todo2 (by decide) (by decide)⟩

/-! ### Calendar bucketing (CalendarView.tsx) -/

/-- `TIME_SLOTS` (CalendarView.tsx lines 31-35): 48 half-hour slots. -/
def TIME_SLOTS : List (Nat × Nat) :=
  (List.range 48).map fun i => (i / 2, if i % 2 = 0 then 0 else 30)

/-- `getTodosForDay` (lines 115-132): a task with a time component must fall
within `[startOfDay day, startOfDay day + 1 day]` (date-fns
`isWithinInterval` is inclusive at both ends); a task due at exactly
midnight is compared by calendar day only. -/
def getTodosForDay (todos : List Todo) (day : DateTime) : List Todo :=
  todos.filter fun todo =>
    match todo.dueDate with
    | some dueDate =>
      if dueDate.hour ≠ 0 ∨ dueDate.minute ≠ 0 then
        dtLE (startOfDay day) dueDate && dtLE dueDate (addOneDay (startOfDay day))
      else isSameDayYMD dueDate day
    | none => false

/-- The day view's all-day bucket (lines 418-422): the todos of the day
whose due time is exactly midnight. -/
def allDayTodos (todos : List Todo) (day : DateTime) : List Todo :=
  (getTodosForDay todos day).filter fun todo =>
    match todo.dueDate with
    | some dd => decide (dd.hour = 0) && decide (dd.minute = 0)
    | none => false

/-- `getTodosForTimeSlot` (lines 181-200). The computed `slotStart` /
`slotEnd` values of the source are unused there and omitted. A task due at
exactly midnight is excluded from every timed slot; otherwise the task
matches the slot of its due day whose hour equals its due hour, the `:00`
slot when the due minute is below 30 and the `:30` slot otherwise. -/
def getTodosForTimeSlot (todos : List Todo) (day : DateTime) (hour minute : Nat) :
    List Todo :=
  todos.filter fun todo =>
    match todo.dueDate with
    | some dueDate =>
      if dueDate.hour = 0 ∧ dueDate.minute = 0 then false
      else
        isSameDayYMD dueDate day &&
        decide (dueDate.hour = hour) &&
        (if minute = 0 then decide (dueDate.minute < 30) else decide (30 ≤ dueDate.minute))
    | none => false

/-- Every slot's minute component is `0` or `30`. -/
theorem timeslot_minutes : ∀ hm ∈ TIME_SLOTS, hm.2 = 0 ∨ hm.2 = 30 := by decide

/-- C7: a task due at exactly midnight lands in the all-day bucket of its
due day and in no timed slot; a task due at a non-midnight time lands in no
all-day bucket and in exactly the half-hour slot covering its due hour and
minute (which is a real slot of the grid). -/
theorem c7_day_slot_bucketing (todos : List Todo) (t : Todo) (dd : DateTime)
    (ht : t ∈ todos) (hdd : t.dueDate = some dd) (hh : dd.hour < 24)
    (hm : dd.minute < 60) :
    (dd.hour = 0 ∧ dd.minute = 0 →
      (∀ d, isSameDayYMD dd d = true → t ∈ allDayTodos todos d)
      ∧ (∀ d h m, t ∉ getTodosForTimeSlot todos d h m))
    ∧ (¬ (dd.hour = 0 ∧ dd.minute = 0) →
      (∀ d, t ∉ allDayTodos todos d)
      ∧ (dd.hour, if dd.minute < 30 then 0 else 30) ∈ TIME_SLOTS
      ∧ (∀ d, ∀ hm2 ∈ TIME_SLOTS,
          (t ∈ getTodosForTimeSlot todos d hm2.1 hm2.2 ↔
            isSameDayYMD dd d = true
            ∧ hm2 = (dd.hour, if dd.minute < 30 then 0 else 30)))) := by
  constructor
  · rintro ⟨hh0, hm0⟩
    constructor
    · intro d hsame
      rw [allDayTodos, List.mem_filter]
      refine ⟨?_, ?_⟩
      · rw [getTodosForDay, List.mem_filter]
        refine ⟨ht, ?_⟩
        simp only [hdd]
        rw [if_neg (by simp [hh0, hm0])]
        exact hsame
      · simp [hdd, hh0, hm0]
    · intro d h m hmem
      rw [getTodosForTimeSlot, List.mem_filter] at hmem
      have hp := hmem.2
      simp only [hdd] at hp
      rw [if_pos ⟨hh0, hm0⟩] at hp
      exact Bool.false_ne_true hp
  · intro hnz
    refine ⟨?_, ?_, ?_⟩
    · intro d hmem
      rw [allDayTodos, List.mem_filter] at hmem
      have hp := hmem.2
      simp only [hdd, Bool.and_eq_true, decide_eq_true_eq] at hp
      exact hnz hp
    · rw [TIME_SLOTS]
      by_cases h30 : dd.minute < 30
      · refine List.mem_map.mpr ⟨2 * dd.hour, List.mem_range.mpr (by omega), ?_⟩
        rw [if_pos h30]
        have h1 : 2 * dd.hour / 2 = dd.hour := by omega
        have h2 : 2 * dd.hour % 2 = 0 := by omega
        rw [h1, if_pos h2]
      · refine List.mem_map.mpr ⟨2 * dd.hour + 1, List.mem_range.mpr (by omega), ?_⟩
        rw [if_neg h30]
        have h1 : (2 * dd.hour + 1) / 2 = dd.hour := by omega
        have h2 : ¬ (2 * dd.hour + 1) % 2 = 0 := by omega
        rw [h1, if_neg h2]
    · intro d hm2 hm2mem
      rw [getTodosForTimeSlot, List.mem_filter]
      simp only [hdd]
      rw [if_neg hnz]
      simp only [Bool.and_eq_true, decide_eq_true_eq]
      rcases timeslot_minutes hm2 hm2mem with hm2eq | hm2eq
      · constructor
        · rintro ⟨-, ⟨⟨hsame, hhour⟩, hmin⟩⟩
          rw [hm2eq] at hmin
          rw [if_pos rfl] at hmin
          have hlt : dd.minute < 30 := of_decide_eq_true hmin
          refine ⟨hsame, ?_⟩
          rw [if_pos hlt]
          cases hm2 with
          | mk a b =>
            simp only at hhour hm2eq
            rw [hhour, hm2eq]
        · rintro ⟨hsame, hpair⟩
          refine ⟨ht, ⟨⟨hsame, ?_⟩, ?_⟩⟩
          · have := congrArg Prod.fst hpair
            simpa using this.symm
          · have h2 := congrArg Prod.snd hpair
            rw [hm2eq] at h2
            by_cases h30 : dd.minute < 30
            · rw [hm2eq, if_pos rfl]
              exact decide_eq_true h30
            · rw [if_neg h30] at h2
              exact absurd h2.symm (by norm_num)
      · constructor
        · rintro ⟨-, ⟨⟨hsame, hhour⟩, hmin⟩⟩
          rw [hm2eq] at hmin
          rw [if_neg (by norm_num)] at hmin
          have hge : 30 ≤ dd.minute := of_decide_eq_true hmin
          refine ⟨hsame, ?_⟩
          rw [if_neg (by omega)]
          cases hm2 with
          | mk a b =>
            simp only at hhour hm2eq
            rw [hhour, hm2eq]
        · rintro ⟨hsame, hpair⟩
          refine ⟨ht, ⟨⟨hsame, ?_⟩, ?_⟩⟩
          · have := congrArg Prod.fst hpair
            simpa using this.symm
          · have h2 := congrArg Prod.snd hpair
            rw [hm2eq] at h2
            by_cases h30 : dd.minute < 30
            · rw [if_pos h30] at h2
              exact absurd h2.symm (by norm_num)
            · rw [hm2eq, if_neg (by norm_num)]
              exact decide_eq_true (by omega)

/-- The two tasks of the spec's example scenario: one due 2024-03-05 at
09:00, one the same day with no time component. -/
def c7NineTodo : Todo :=
  { c1Todo with
    id := some 1,
    text := "nine oclock",
    dueDate := some ⟨2024, 2, 5, 9, 0⟩ }

def c7MidTodo : Todo :=
  { c1Todo with
    id := some 2,
    text := "all day",
    dueDate := some ⟨2024, 2, 5, 0, 0⟩ }

def c7Day : DateTime := ⟨2024, 2, 5, 0, 0⟩

/-- Witness for `c7_day_slot_bucketing` on the example scenario: the
midnight task is in the all-day bucket, the 09:00 task is not, and the
09:00 task sits in the 09:00 slot. -/
theorem c7_witness :
    c7MidTodo ∈ allDayTodos [c7NineTodo, c7MidTodo] c7Day
    ∧ c7NineTodo ∉ allDayTodos [c7NineTodo, c7MidTodo] c7Day
    ∧ (c7NineTodo ∈ getTodosForTimeSlot [c7NineTodo, c7MidTodo] c7Day 9 0 ↔
        isSameDayYMD ⟨2024, 2, 5, 9, 0⟩ c7Day = true
        ∧ ((9, 0) : Nat × Nat) = (9, if (0 : Nat) < 30 then 0 else 30)) :=
  ⟨((c7_day_slot_bucketing [c7NineTodo, c7MidTodo] c7MidTodo ⟨2024, 2, 5, 0, 0⟩
      (by decide) rfl (by decide) (by decide)).1 (by decide)).1 c7Day (by decide),
   ((c7_day_slot_bucketing [c7NineTodo, c7MidTodo] c7NineTodo ⟨2024, 2, 5, 9, 0⟩
      (by decide) rfl (by decide) (by decide)).2 (by decide)).1 c7Day,
   ((c7_day_slot_bucketing [c7NineTodo, c7MidTodo] c7NineTodo ⟨2024, 2, 5, 9, 0⟩
      (by decide) rfl (by decide) (by decide)).2 (by decide)).2.2 c7Day (9, 0) (by decide)⟩

/-! ### The statistics builder (`updateDailyStats`, db module lines 752-831)

The source keys and compares days through `toISOString().split("T")[0]`.
In the fixed-timezone model of this file, two instants have the same ISO
day string iff their (year, month, day) triples agree, so the comparisons
are embedded as `isSameDayYMD`; the stored key string itself is built by
`isoDateString` below, the zero-padded rendering `YYYY-MM-DD`. -/

/-- Zero-pad to two digits. -/
def pad2 (n : Nat) : String := if n < 10 then "0" ++ toString n else toString n

/-- Zero-pad to four digits. -/
def pad4 (n : Nat) : String :=
  if n < 10 then "000" ++ toString n
  else if n < 100 then "00" ++ toString n
  else if n < 1000 then "0" ++ toString n
  else toString n

/-- `toISOString().split("T")[0]`: the `YYYY-MM-DD` day string (`getMonth`
is 0-based, hence the `+ 1`). -/
def isoDateString (d : DateTime) : String :=
  pad4 d.year ++ "-" ++ pad2 (d.month + 1) ++ "-" ++ pad2 d.day

/-- The task was completed on day `today` (source: `todo.completedAt` is
set and its ISO day equals `todayStr`). -/
def completedToday (today : DateTime) (t : Todo) : Bool :=
  match t.completedAt with
  | some c => isSameDayYMD c today
  | none => false

/-- The task is due on day `today` (source: `todo.dueDate` is set and its
ISO day equals `todayStr`). -/
def dueToday (today : DateTime) (t : Todo) : Bool :=
  match t.dueDate with
  | some d => isSameDayYMD d today
  | none => false

/-- The task's tag list contains `g` (JS `todo.tags.includes(g)` guarded by
presence). -/
def tagMem (t : Todo) (g : String) : Bool :=
  match t.tags with
  | some tl => tl.any fun s => decide (s = g)
  | none => false

/-- Occurrences of `g` in a tag list. -/
def countTag (tl : List String) (g : String) : Nat :=
  tl.countP fun s => decide (s = g)

/-- Occurrences of `g` in the task's tag list. -/
def tagCount (t : Todo) (g : String) : Nat :=
  match t.tags with
  | some tl => countTag tl g
  | none => 0

/-- `getAllTags` (db module lines 453-467) as a membership test: `g` is in
the collected tag set iff some task has a non-empty tag list containing it. -/
def getAllTagsMem (todos : List Todo) (tag : String) : Bool :=
  todos.any fun t =>
    match t.tags with
    | some tl => decide (0 < tl.length) && tl.any fun s => decide (s = tag)
    | none => false

/-- The running accumulators of the `updateDailyStats` scan
(`completedCount`, `totalCount`, `categoryStats`, `tagStats`). -/
structure StatsAcc where
  completedCount : Nat
  totalCount : Nat
  categoryStats : String → Option CatCounts
  tagStats : String → Option CatCounts

/-- JS object key update `m[k] = v`. -/
def updateFn (f : String → Option CatCounts) (k : String) (v : CatCounts) :
    String → Option CatCounts :=
  fun q => if q = k then some v else f q

/-- The per-tag body `if (tagStats[tag]) { total++; if (completed)
completed++ }` (lines 807-814). -/
def tagStep (completedFlag : Bool) (ts : String → Option CatCounts) (tag : String) :
    String → Option CatCounts :=
  match ts tag with
  | some cc =>
    updateFn ts tag
      { completed := cc.completed + (if completedFlag then 1 else 0),
        total := cc.total + 1 }
  | none => ts

/-- The per-category body `if (todo.categoryId && categoryStats[...])`
(lines 798-803). -/
def statsCatStep (todo : Todo) (acc2 : StatsAcc) : StatsAcc :=
  match todo.categoryId with
  | some cid =>
    match acc2.categoryStats cid with
    | some cc =>
      { acc2 with
        categoryStats :=
          updateFn acc2.categoryStats cid
            { completed := cc.completed + (if todo.completed then 1 else 0),
              total := cc.total + 1 } }
    | none => acc2
  | none => acc2

/-- The body of the `dueDate`-is-today branch (lines 792-817): bump
`totalCount`, then the per-category and per-tag rollups. -/
def statsDueStep (todo : Todo) (acc1 : StatsAcc) : StatsAcc :=
  let acc2 : StatsAcc := { acc1 with totalCount := acc1.totalCount + 1 }
  let acc3 := statsCatStep todo acc2
  match todo.tags with
  | some tl => { acc3 with tagStats := tl.foldl (tagStep todo.completed) acc3.tagStats }
  | none => acc3

/-- One iteration of the `allTodos.forEach` scan (lines 782-818). -/
def statsStep (today : DateTime) (acc : StatsAcc) (todo : Todo) : StatsAcc :=
  let acc1 : StatsAcc :=
    if completedToday today todo then
      { acc with completedCount := acc.completedCount + 1 }
    else acc
  if dueToday today todo then statsDueStep todo acc1 else acc1

/-- `updateDailyStats` (lines 752-831) as a pure record computation: scan
the full task collection once and build the `StatsData` record for the
current day, with category rollups keyed by the existing categories and tag
rollups keyed by `getAllTags`. -/
def updateDailyStatsRecord (todos : List Todo) (categories : List Category)
    (now : DateTime) : StatsData :=
  let today := startOfDay now
  let init : StatsAcc :=
    { completedCount := 0, totalCount := 0,
      categoryStats := fun cid =>
        if categories.any (fun c => decide (c.id = cid)) then some ⟨0, 0⟩ else none,
      tagStats := fun tag => if getAllTagsMem todos tag then some ⟨0, 0⟩ else none }
  let final := todos.foldl (statsStep today) init
  { id := "stats_" ++ isoDateString today, date := today,
    completedCount := final.completedCount, totalCount := final.totalCount,
    categoryStats := final.categoryStats, tagStats := final.tagStats }

/-- The store write of `updateDailyStats`: one `db.put` into the stats
store, keyed by the record id (upsert). -/
def updateDailyStats (db : DBState) (now : DateTime) : DBState :=
  let s := updateDailyStatsRecord db.todos db.categories now
  { db with statsStore := fun k => if k = s.id then some s else db.statsStore k }

/-! Projection lemmas for one scan step. -/

theorem statsCatStep_completedCount (todo : Todo) (b : StatsAcc) :
    (statsCatStep todo b).completedCount = b.completedCount := by
  rw [statsCatStep.eq_def]
  cases hcat : todo.categoryId with
  | none => rfl
  | some cid =>
    cases hcc : b.categoryStats cid with
    | none => simp [hcc]
    | some cc => simp [hcc]

theorem statsCatStep_totalCount (todo : Todo) (b : StatsAcc) :
    (statsCatStep todo b).totalCount = b.totalCount := by
  rw [statsCatStep.eq_def]
  cases hcat : todo.categoryId with
  | none => rfl
  | some cid =>
    cases hcc : b.categoryStats cid with
    | none => simp [hcc]
    | some cc => simp [hcc]

theorem statsCatStep_tagStats (todo : Todo) (b : StatsAcc) :
    (statsCatStep todo b).tagStats = b.tagStats := by
  rw [statsCatStep.eq_def]
  cases hcat : todo.categoryId with
  | none => rfl
  | some cid =>
    cases hcc : b.categoryStats cid with
    | none => simp [hcc]
    | some cc => simp [hcc]

theorem statsCatStep_categoryStats (todo : Todo) (b : StatsAcc) (k : String) :
    (statsCatStep todo b).categoryStats k =
      match b.categoryStats k with
      | none => none
      | some cc =>
        if todo.categoryId = some k then
          some { completed := cc.completed + (if todo.completed then 1 else 0),
                 total := cc.total + 1 }
        else some cc := by
  rw [statsCatStep.eq_def]
  cases hcat : todo.categoryId with
  | none =>
    cases hbk : b.categoryStats k with
    | none => simp [hbk]
    | some cc => simp [hbk]
  | some cid =>
    cases hcc : b.categoryStats cid with
    | none =>
      by_cases hk : cid = k
      · subst hk
        simp [hcc]
      · cases hbk : b.categoryStats k with
        | none => simp [hcc, hbk]
        | some cc2 => simp [hcc, hbk, hk]
    | some cc =>
      by_cases hk : k = cid
      · subst hk
        simp [hcc, updateFn]
      · cases hbk : b.categoryStats k with
        | none => simp [hcc, hbk, updateFn, hk, Ne.symm hk]
        | some cc2 => simp [hcc, hbk, updateFn, hk, Ne.symm hk]

theorem tagStep_apply (b : Bool) (ts : String → Option CatCounts) (tag g : String) :
    tagStep b ts tag g =
      if g = tag then
        match ts tag with
        | some cc =>
          some { completed := cc.completed + (if b then 1 else 0), total := cc.total + 1 }
        | none => ts g
      else ts g := by
  rw [tagStep.eq_def]
  cases h : ts tag with
  | some cc => simp [updateFn]
  | none =>
    by_cases hg : g = tag
    · rw [if_pos hg]
    · rw [if_neg hg]

theorem countTag_cons (a : String) (tl : List String) (g : String) :
    countTag (a :: tl) g = countTag tl g + (if a = g then 1 else 0) := by
  rw [countTag, countTag, List.countP_cons]
  by_cases h : a = g
  · rw [if_pos h, if_pos (decide_eq_true h)]
  · rw [if_neg h, if_neg (by simp [h])]

theorem foldl_tagStep_apply (b : Bool) (g : String) :
    ∀ (tl : List String) (ts : String → Option CatCounts),
      (tl.foldl (tagStep b) ts) g =
        match ts g with
        | none => none
        | some cc =>
          some { completed := cc.completed + (if b then countTag tl g else 0),
                 total := cc.total + countTag tl g } := by
  intro tl
  induction tl with
  | nil =>
    intro ts
    rw [List.foldl_nil]
    cases h : ts g with
    | none => rfl
    | some cc => simp [countTag]
  | cons a tl ih =>
    intro ts
    rw [List.foldl_cons, ih (tagStep b ts a), tagStep_apply]
    by_cases hg : g = a
    · subst hg
      rw [if_pos rfl]
      cases h : ts g with
      | none => simp [h]
      | some cc =>
        have hcnt : countTag (g :: tl) g = countTag tl g + 1 := by
          rw [countTag_cons, if_pos rfl]
        simp only [h, hcnt]
        cases b <;> simp <;> omega
    · rw [if_neg hg]
      have hcnt : countTag (a :: tl) g = countTag tl g := by
        rw [countTag_cons, if_neg fun h2 => hg h2.symm]
        exact Nat.add_zero _
      rw [hcnt]

theorem statsDueStep_completedCount (todo : Todo) (b : StatsAcc) :
    (statsDueStep todo b).completedCount = b.completedCount := by
  simp only [statsDueStep]
  cases todo.tags with
  | none => simp [statsCatStep_completedCount]
  | some tl => simp [statsCatStep_completedCount]

theorem statsDueStep_totalCount (todo : Todo) (b : StatsAcc) :
    (statsDueStep todo b).totalCount = b.totalCount + 1 := by
  simp only [statsDueStep]
  cases todo.tags with
  | none => simp [statsCatStep_totalCount]
  | some tl => simp [statsCatStep_totalCount]

theorem statsDueStep_categoryStats (todo : Todo) (b : StatsAcc) (k : String) :
    (statsDueStep todo b).categoryStats k =
      match b.categoryStats k with
      | none => none
      | some cc =>
        if todo.categoryId = some k then
          some { completed := cc.completed + (if todo.completed then 1 else 0),
                 total := cc.total + 1 }
        else some cc := by
  have hb : (statsCatStep todo { b with totalCount := b.totalCount + 1 }).categoryStats k
      = match b.categoryStats k with
      | none => none
      | some cc =>
        if todo.categoryId = some k then
          some { completed := cc.completed + (if todo.completed then 1 else 0),
                 total := cc.total + 1 }
        else some cc := statsCatStep_categoryStats todo _ k
  simp only [statsDueStep]
  cases todo.tags with
  | none => exact hb
  | some tl => exact hb

theorem statsDueStep_tagStats (todo : Todo) (b : StatsAcc) (g : String) :
    (statsDueStep todo b).tagStats g =
      match b.tagStats g with
      | none => none
      | some cc =>
        some { completed := cc.completed + (if todo.completed then tagCount todo g else 0),
               total := cc.total + tagCount todo g } := by
  simp only [statsDueStep]
  have hcs : (statsCatStep todo { b with totalCount := b.totalCount + 1 }).tagStats
      = b.tagStats := statsCatStep_tagStats todo _
  cases htags : todo.tags with
  | none =>
    rw [show (statsCatStep todo { b with totalCount := b.totalCount + 1 }).tagStats g
        = b.tagStats g from congrFun hcs g]
    rw [tagCount.eq_def, htags]
    cases b.tagStats g with
    | none => rfl
    | some cc => cases todo.completed <;> simp
  | some tl =>
    show (tl.foldl (tagStep todo.completed)
        (statsCatStep todo { b with totalCount := b.totalCount + 1 }).tagStats) g = _
    rw [foldl_tagStep_apply, congrFun hcs g, tagCount.eq_def, htags]

theorem bool_eq_false {b : Bool} (h : ¬ b = true) : b = false := by
  cases b with
  | false => rfl
  | true => exact absurd rfl h

theorem statsStep_completedCount (today : DateTime) (acc : StatsAcc) (todo : Todo) :
    (statsStep today acc todo).completedCount
      = acc.completedCount + (if completedToday today todo then 1 else 0) := by
  simp only [statsStep]
  by_cases hc : completedToday today todo = true <;>
    by_cases hd : dueToday today todo = true <;>
      simp [hc, hd, statsDueStep_completedCount]

theorem statsStep_totalCount (today : DateTime) (acc : StatsAcc) (todo : Todo) :
    (statsStep today acc todo).totalCount
      = acc.totalCount + (if dueToday today todo then 1 else 0) := by
  simp only [statsStep]
  by_cases hc : completedToday today todo = true <;>
    by_cases hd : dueToday today todo = true <;>
      simp [hc, hd, statsDueStep_totalCount]

theorem statsStep_categoryStats (today : DateTime) (acc : StatsAcc) (todo : Todo)
    (k : String) :
    (statsStep today acc todo).categoryStats k =
      match acc.categoryStats k with
      | none => none
      | some cc =>
        if dueToday today todo && decide (todo.categoryId = some k) then
          some { completed := cc.completed + (if todo.completed then 1 else 0),
                 total := cc.total + 1 }
        else some cc := by
  simp only [statsStep]
  by_cases hd : dueToday today todo = true
  · rw [if_pos hd, statsDueStep_categoryStats]
    cases hacc : acc.categoryStats k with
    | none => by_cases hc : completedToday today todo = true <;> simp [hc, hacc]
    | some cc =>
      by_cases hc : completedToday today todo = true <;>
        by_cases hp : todo.categoryId = some k <;> simp [hc, hp, hacc, hd]
  · have hd2 := bool_eq_false hd
    rw [if_neg hd]
    cases hacc : acc.categoryStats k with
    | none => by_cases hc : completedToday today todo = true <;> simp [hc, hacc]
    | some cc => by_cases hc : completedToday today todo = true <;> simp [hc, hacc, hd2]

theorem statsStep_tagStats (today : DateTime) (acc : StatsAcc) (todo : Todo)
    (g : String) :
    (statsStep today acc todo).tagStats g =
      match acc.tagStats g with
      | none => none
      | some cc =>
        if dueToday today todo then
          some { completed := cc.completed + (if todo.completed then tagCount todo g else 0),
                 total := cc.total + tagCount todo g }
        else some cc := by
  simp only [statsStep]
  by_cases hd : dueToday today todo = true
  · rw [if_pos hd, statsDueStep_tagStats]
    cases hacc : acc.tagStats g with
    | none => by_cases hc : completedToday today todo = true <;> simp [hc, hacc]
    | some cc => by_cases hc : completedToday today todo = true <;> simp [hc, hacc, hd]
  · have hd2 := bool_eq_false hd
    rw [if_neg hd]
    cases hacc : acc.tagStats g with
    | none => by_cases hc : completedToday today todo = true <;> simp [hc, hacc]
    | some cc => by_cases hc : completedToday today todo = true <;> simp [hc, hacc, hd2]

/-! Whole-scan lemmas. -/

theorem foldl_statsStep_completedCount (today : DateTime) :
    ∀ (todos : List Todo) (acc : StatsAcc),
      (todos.foldl (statsStep today) acc).completedCount
        = acc.completedCount + todos.countP (completedToday today) := by
  intro todos
  induction todos with
  | nil => intro acc; simp
  | cons t todos ih =>
    intro acc
    rw [List.foldl_cons, ih, statsStep_completedCount, List.countP_cons]
    by_cases hc : completedToday today t = true <;> simp [hc] <;> omega

theorem foldl_statsStep_totalCount (today : DateTime) :
    ∀ (todos : List Todo) (acc : StatsAcc),
      (todos.foldl (statsStep today) acc).totalCount
        = acc.totalCount + todos.countP (dueToday today) := by
  intro todos
  induction todos with
  | nil => intro acc; simp
  | cons t todos ih =>
    intro acc
    rw [List.foldl_cons, ih, statsStep_totalCount, List.countP_cons]
    by_cases hd : dueToday today t = true <;> simp [hd] <;> omega

theorem foldl_statsStep_categoryStats (today : DateTime) (k : String) :
    ∀ (todos : List Todo) (acc : StatsAcc),
      (todos.foldl (statsStep today) acc).categoryStats k =
        match acc.categoryStats k with
        | none => none
        | some cc =>
          some { completed := cc.completed + todos.countP
                    (fun t => dueToday today t && decide (t.categoryId = some k) && t.completed),
                 total := cc.total + todos.countP
                    (fun t => dueToday today t && decide (t.categoryId = some k)) } := by
  intro todos
  induction todos with
  | nil =>
    intro acc
    rw [List.foldl_nil]
    cases hacc : acc.categoryStats k with
    | none => rfl
    | some cc => simp
  | cons t todos ih =>
    intro acc
    rw [List.foldl_cons, ih, statsStep_categoryStats, List.countP_cons, List.countP_cons]
    cases hacc : acc.categoryStats k with
    | none => rfl
    | some cc =>
      by_cases hdc : (dueToday today t && decide (t.categoryId = some k)) = true
      · by_cases hcpl : t.completed = true <;> simp [hdc, hcpl] <;> omega
      · have hdc2 := bool_eq_false hdc
        simp [hdc2]

theorem countTag_nodup (tl : List String) (h : tl.Nodup) (g : String) :
    countTag tl g = if (tl.any fun s => decide (s = g)) then 1 else 0 := by
  induction tl with
  | nil => rfl
  | cons a tl ih =>
    rw [List.nodup_cons] at h
    rw [countTag_cons, ih h.2, List.any_cons]
    by_cases ha : a = g
    · subst ha
      have hno : (tl.any fun s => decide (s = a)) = false := by
        rw [List.any_eq_false]
        intro s hs
        simp only [decide_eq_true_eq]
        intro hsa
        exact h.1 (hsa ▸ hs)
      rw [hno]
      simp
    · have hda : decide (a = g) = false := decide_eq_false ha
      rw [hda]
      simp [ha]

theorem tagCount_nodup (t : Todo) (h : (t.tags.getD []).Nodup) (g : String) :
    tagCount t g = if tagMem t g then 1 else 0 := by
  rw [tagCount.eq_def, tagMem.eq_def]
  cases htags : t.tags with
  | none => rfl
  | some tl =>
    rw [htags] at h
    exact countTag_nodup tl h g

theorem foldl_statsStep_tagStats (today : DateTime) (g : String) :
    ∀ (todos : List Todo) (acc : StatsAcc),
      (∀ t ∈ todos, (t.tags.getD []).Nodup) →
      (todos.foldl (statsStep today) acc).tagStats g =
        match acc.tagStats g with
        | none => none
        | some cc =>
          some { completed := cc.completed + todos.countP
                    (fun t => dueToday today t && tagMem t g && t.completed),
                 total := cc.total + todos.countP
                    (fun t => dueToday today t && tagMem t g) } := by
  intro todos
  induction todos with
  | nil =>
    intro acc hnd
    rw [List.foldl_nil]
    cases hacc : acc.tagStats g with
    | none => rfl
    | some cc => simp
  | cons t todos ih =>
    intro acc hnd
    rw [List.foldl_cons,
      ih (statsStep today acc t) (fun s hs => hnd s (List.mem_cons_of_mem t hs)),
      statsStep_tagStats, List.countP_cons, List.countP_cons]
    have hcnt : tagCount t g = if tagMem t g then 1 else 0 :=
      tagCount_nodup t (hnd t (List.mem_cons_self t todos)) g
    cases hacc : acc.tagStats g with
    | none => rfl
    | some cc =>
      by_cases hd : dueToday today t = true
      · by_cases hm : tagMem t g = true
        · by_cases hcpl : t.completed = true <;> simp [hd, hm, hcpl, hcnt] <;> omega
        · have hm2 := bool_eq_false hm
          simp [hd, hm2, hcnt]
      · have hd2 := bool_eq_false hd
        simp [hd2, hcnt]

/-- C8: `updateDailyStats` writes exactly one record, keyed by the current
day's ISO date string (overwriting any record under that key and touching no
other key); its `completedCount` counts the tasks completed today (by
completion timestamp, truncated to day), its `totalCount` counts the tasks
due today, and each per-category / per-tag rollup counts only tasks due
today (per-tag counts assume duplicate-free tag lists). -/
theorem c8_updateDailyStats_spec (db : DBState) (now : DateTime)
    (htags : ∀ t ∈ db.todos, (t.tags.getD []).Nodup) :
    (updateDailyStatsRecord db.todos db.categories now).id
      = "stats_" ++ isoDateString (startOfDay now)
    ∧ (∀ k, (updateDailyStats db now).statsStore k =
        if k = (updateDailyStatsRecord db.todos db.categories now).id then
          some (updateDailyStatsRecord db.todos db.categories now)
        else db.statsStore k)
    ∧ (updateDailyStatsRecord db.todos db.categories now).completedCount
      = db.todos.countP (completedToday (startOfDay now))
    ∧ (updateDailyStatsRecord db.todos db.categories now).totalCount
      = db.todos.countP (dueToday (startOfDay now))
    ∧ (∀ cid, (db.categories.any fun c => decide (c.id = cid)) = true →
        (updateDailyStatsRecord db.todos db.categories now).categoryStats cid =
          some { completed := db.todos.countP (fun t => dueToday (startOfDay now) t
                    && decide (t.categoryId = some cid) && t.completed),
                 total := db.todos.countP (fun t => dueToday (startOfDay now) t
                    && decide (t.categoryId = some cid)) })
    ∧ (∀ g, getAllTagsMem db.todos g = true →
        (updateDailyStatsRecord db.todos db.categories now).tagStats g =
          some { completed := db.todos.countP (fun t => dueToday (startOfDay now) t
                    && tagMem t g && t.completed),
                 total := db.todos.countP (fun t => dueToday (startOfDay now) t
                    && tagMem t g) }) := by
  refine ⟨rfl, fun k => rfl, ?_, ?_, ?_, ?_⟩
  · show (db.todos.foldl (statsStep (startOfDay now)) _).completedCount = _
    rw [foldl_statsStep_completedCount]
    exact Nat.zero_add _
  · show (db.todos.foldl (statsStep (startOfDay now)) _).totalCount = _
    rw [foldl_statsStep_totalCount]
    exact Nat.zero_add _
  · intro cid hcid
    show (db.todos.foldl (statsStep (startOfDay now)) _).categoryStats cid = _
    rw [foldl_statsStep_categoryStats]
    simp [hcid]
  · intro g hg
    show (db.todos.foldl (statsStep (startOfDay now)) _).tagStats g = _
    rw [foldl_statsStep_tagStats (startOfDay now) g db.todos _ htags]
    simp [hg]

/-- A store with one category and one task due today for the witness. -/
def w8Todo : Todo :=
  { c1Todo with
    id := some 1,
    text := "due today",
    completed := true,
    dueDate := some ⟨2024, 2, 5, 10, 0⟩,
    tags := some ["a"],
    categoryId := some "c1",
    completedAt := some ⟨2024, 2, 5, 11, 0⟩ }

def w8DB : DBState :=
  { todos := [w8Todo], nextTodoId := 2, categories := [w6Cat], settings := none,
    templates := [], statsStore := fun _ => none }

def w8Now : DateTime := ⟨2024, 2, 5, 14, 30⟩

/-- Witness for `c8_updateDailyStats_spec` on the concrete store. -/
theorem c8_witness :
    (updateDailyStatsRecord w8DB.todos w8DB.categories w8Now).completedCount
      = w8DB.todos.countP (completedToday (startOfDay w8Now))
    ∧ (updateDailyStatsRecord w8DB.todos w8DB.categories w8Now).categoryStats "c1" =
        some { completed := w8DB.todos.countP (fun t => dueToday (startOfDay w8Now) t
                  && decide (t.categoryId = some "c1") && t.completed),
               total := w8DB.todos.countP (fun t => dueToday (startOfDay w8Now) t
                  && decide (t.categoryId = some "c1")) } :=
  ⟨(c8_updateDailyStats_spec w8DB w8Now (by decide)).2.2.1,
   (c8_updateDailyStats_spec w8DB w8Now (by decide)).2.2.2.2.1 "c1" (by decide)⟩

end TodoApp
